import Mathlib

/-!
Shallow embedding of the `preprocess` parser from `app.py` of the
whatsapp-chat-analyzer repository, together with theorems settling the
frozen claims about it.

The Python source works on Unicode strings with `re`; here strings are
`List Char` (obtained from Lean `String`s).  The regex character class
`\d` is modelled as the ASCII digits (the only digits the spec's export
format produces) and `\s` as the common whitespace characters.
-/

namespace WhatsAppAnalyzer

/-- Model of the regex class `\s` (whitespace): ASCII whitespace plus the
narrow no-break space the pattern itself tolerates. -/
def isSpaceA (c : Char) : Bool :=
  c = ' ' ∨ c = '\t' ∨ c = '\n' ∨ c = '\r' ∨ c = '\x0b' ∨ c = '\x0c' ∨ c = '\u202F'

/-- Maximal run of ASCII digits at the front of the list: `(digits, rest)`. -/
def digitRun : List Char → List Char × List Char
  | [] => ([], [])
  | c :: cs =>
    if c.isDigit then
      let p := digitRun cs
      (c :: p.1, p.2)
    else ([], c :: cs)

/-- Consume between `lo` and `hi` digits (a bounded `\d{lo,hi}` group whose
follower in the pattern is always a non-digit, so the greedy regex semantics
coincide with taking the maximal digit run and checking its length). -/
def digitsGroup (lo hi : Nat) (cs : List Char) : Option (List Char × List Char) :=
  let p := digitRun cs
  if lo ≤ p.1.length ∧ p.1.length ≤ hi then some (p.1, p.2) else none

/-- Consume one expected literal character. -/
def expectChar (c : Char) : List Char → Option (List Char)
  | x :: xs => if x = c then some xs else none
  | [] => none

/-- Matcher for the timestamp-prefix regex
`\d{1,2}/\d{1,2}/\d{2,4}, \d{1,2}:\d{2} ?[APap][Mm] -` anchored at the
start of `cs`; returns the rest of the input after the match. -/
def matchTimestampRest (cs : List Char) : Option (List Char) := do
  let d1 ← digitsGroup 1 2 cs
  let r2 ← expectChar '/' d1.2
  let d2 ← digitsGroup 1 2 r2
  let r4 ← expectChar '/' d2.2
  let d3 ← digitsGroup 2 4 r4
  let r6 ← expectChar ',' d3.2
  let r7 ← expectChar ' ' r6
  let d4 ← digitsGroup 1 2 r7
  let r9 ← expectChar ':' d4.2
  let d5 ← digitsGroup 2 2 r9
  let r10 := d5.2
  let r11 := match r10 with
             | '\u202F' :: t => t
             | _ => r10
  match r11 with
  | a :: m :: ' ' :: '-' :: r12 =>
    if (a = 'A' ∨ a = 'P' ∨ a = 'a' ∨ a = 'p') ∧ (m = 'M' ∨ m = 'm')
    then some r12 else none
  | _ => none

/-- Anchored matcher also returning the matched text (the prefix consumed). -/
def matchTimestampAt (cs : List Char) : Option (List Char × List Char) :=
  match matchTimestampRest cs with
  | some rest => some (cs.take (cs.length - rest.length), rest)
  | none => none

/-- One left-to-right scan of the input for non-overlapping leftmost matches
of the timestamp pattern.  Returns the pieces between matches (as `re.split`
with a group-free pattern does: text before the first match, between
consecutive matches, and after the last match) and the matched texts (as
`re.findall` does).  Fuel is the input length; since every match consumes at
least one character this is always sufficient, and the fuel-exhaustion case
coincides with the end-of-input case. -/
def scanAux : Nat → List Char → List Char → List (List Char) × List (List Char)
  | 0, acc, cs => ([acc.reverse ++ cs], [])
  | Nat.succ fuel, acc, cs =>
    match cs with
    | [] => ([acc.reverse], [])
    | c :: rest =>
      match matchTimestampAt (c :: rest) with
      | some p =>
        let q := scanAux fuel [] p.2
        (acc.reverse :: q.1, p.1 :: q.2)
      | none => scanAux fuel (c :: acc) rest

/-- Scan the whole document once. -/
def timestampScan (data : List Char) : List (List Char) × List (List Char) :=
  scanAux data.length [] data

/-- `re.split(pattern, data)[1:]` — the message blocks (text before the first
match is dropped, as in line 22 of the source). -/
def reSplitMessages (data : String) : List (List Char) :=
  ((timestampScan data.toList).1).drop 1

/-- `re.findall(pattern, data)` — all matched timestamp texts. -/
def reFindAll (data : String) : List (List Char) :=
  (timestampScan data.toList).2

/-- The blocks after the truncation to `min(len(messages), len(dates))`
(lines 28-29 of the source). -/
def blocksOf (data : String) : List (List Char) :=
  (reSplitMessages data).take
    (min (reSplitMessages data).length (reFindAll data).length)

/-- The matched timestamp texts after the same truncation. -/
def datesOf (data : String) : List (List Char) :=
  (reFindAll data).take
    (min (reSplitMessages data).length (reFindAll data).length)

/-- `d.replace(' ', '').replace('‎', '').strip()` (line 32). -/
def cleanDate (d : List Char) : List Char :=
  let noMarks := d.filter (fun c => ¬(c = '\u202F' ∨ c = '\u200E'))
  ((noMarks.dropWhile isSpaceA).reverse.dropWhile isSpaceA).reverse

/-- Numeric value of a digit list. -/
def toNatDigits (ds : List Char) : Nat :=
  ds.foldl (fun a c => 10 * a + (c.toNat - 48)) 0

def isLeapYear (y : Nat) : Bool :=
  (y % 4 = 0 ∧ y % 100 ≠ 0) ∨ y % 400 = 0

def daysInMonth (y m : Nat) : Nat :=
  if m = 2 then (if isLeapYear y then 29 else 28)
  else if m = 4 ∨ m = 6 ∨ m = 9 ∨ m = 11 then 30
  else 31

/-- A parsed wall-clock timestamp (what a non-NaT pandas datetime carries
that the program uses). -/
structure PDateTime where
  year : Nat
  month : Nat
  day : Nat
  hour : Nat
  minute : Nat
deriving DecidableEq, Repr, Inhabited

/-- `pd.to_datetime(s, format='%d/%m/%y, %I:%M%p -', errors='coerce')` for a
single string: strict full-string match of the format, `none` for NaT.
`%y` maps 00-68 to 2000-2068 and 69-99 to 1969-1999; `%I`/`%p` produce the
24-hour clock; calendar validity is enforced. -/
def parseTimestamp (cs : List Char) : Option PDateTime := do
  let d ← digitsGroup 1 2 cs
  let r2 ← expectChar '/' d.2
  let m ← digitsGroup 1 2 r2
  let r4 ← expectChar '/' m.2
  let y ← digitsGroup 1 2 r4
  let r6 ← expectChar ',' y.2
  let r7 ← expectChar ' ' r6
  let hh ← digitsGroup 1 2 r7
  let r9 ← expectChar ':' hh.2
  let mm ← digitsGroup 1 2 r9
  match mm.2 with
  | a :: b :: ' ' :: '-' :: [] =>
    let isAM := (a = 'a' ∨ a = 'A') ∧ (b = 'm' ∨ b = 'M')
    let isPM := (a = 'p' ∨ a = 'P') ∧ (b = 'm' ∨ b = 'M')
    if ¬(isAM ∨ isPM) then none
    else
      let dayV := toNatDigits d.1
      let monV := toNatDigits m.1
      let y2 := toNatDigits y.1
      let yearV := if y2 ≤ 68 then 2000 + y2 else 1900 + y2
      let hourV := toNatDigits hh.1
      let minV := toNatDigits mm.1
      if 1 ≤ dayV ∧ 1 ≤ monV ∧ monV ≤ 12 ∧ dayV ≤ daysInMonth yearV monV ∧
         1 ≤ hourV ∧ hourV ≤ 12 ∧ minV ≤ 59 then
        some { year := yearV, month := monV, day := dayV,
               hour := (if isPM then hourV % 12 + 12 else hourV % 12),
               minute := minV }
      else none
  | _ => none

/-- `dt.month_name()` for the month number. -/
def monthName : Nat → String
  | 1 => "January" | 2 => "February" | 3 => "March" | 4 => "April"
  | 5 => "May" | 6 => "June" | 7 => "July" | 8 => "August"
  | 9 => "September" | 10 => "October" | 11 => "November" | 12 => "December"
  | _ => ""

/-- `dt.day_name()`: weekday of a Gregorian date via Zeller's congruence. -/
def dayNameOf (y m d : Nat) : String :=
  let y2 := if m ≤ 2 then y - 1 else y
  let m2 := if m ≤ 2 then m + 12 else m
  let k := y2 % 100
  let j := y2 / 100
  let h := (d + (13 * (m2 + 1)) / 5 + k + k / 4 + j / 4 + 5 * j) % 7
  match h with
  | 0 => "Saturday" | 1 => "Sunday" | 2 => "Monday" | 3 => "Tuesday"
  | 4 => "Wednesday" | 5 => "Thursday" | _ => "Friday"

/-- Python `':' in x` for a one-character needle. -/
def hasColon : List Char → Bool
  | [] => false
  | c :: cs => if c = ':' then true else hasColon cs

/-- Leftmost match of `([^:]+):\s` in `x`, returning the captured group
(the run of non-colon characters immediately before the colon) and the text
after the whitespace character, exactly the elements `[1]` and `[2]` of
`re.split(r'([^:]+):\s', x, maxsplit=1)` when the pattern matches; `none`
when it does not (in which case that `re.split` call returns `[x]` and the
index `[1]` raises `IndexError`).  `acc` is the reversed current run. -/
def findDelimAux : List Char → List Char → Option (List Char × List Char)
  | _, [] => none
  | acc, c :: tail =>
    if c = ':' then
      match tail with
      | [] => none
      | d :: tail2 =>
        if acc ≠ [] ∧ isSpaceA d then some (acc.reverse, tail2)
        else findDelimAux [] tail
    else findDelimAux (c :: acc) tail

def findDelim (x : List Char) : Option (List Char × List Char) :=
  findDelimAux [] x

/-- The sender/body computation of lines 42-44: guarded by `':' in x`;
`none` models the `IndexError` raised when the guard passes but the split
pattern does not match. -/
def splitUserMsg (x : List Char) : Option (String × String) :=
  if hasColon x then
    match findDelim x with
    | some p => some (p.1.asString, p.2.asString)
    | none => none
  else some ("group_notification", x.asString)

/-- One row of the resulting DataFrame: the `date`, `user`, `message`
columns and the six derived calendar columns of lines 49-54. -/
structure Record where
  date : Option PDateTime
  user : String
  message : String
  year : Option Nat
  month : Option String
  day : Option Nat
  hour : Option Nat
  minute : Option Nat
  day_name : Option String
deriving DecidableEq, Repr, Inhabited

/-- Build one row from a (block, parsed timestamp) pair.  The `getD` default
is never reached: `preprocess` returns `indexError` when any block's split
fails. -/
def mkRecord (p : List Char × Option PDateTime) : Record :=
  let um := (splitUserMsg p.1).getD ("group_notification", "")
  { date := p.2
    user := um.1
    message := um.2
    year := p.2.map PDateTime.year
    month := p.2.map (fun t => monthName t.month)
    day := p.2.map PDateTime.day
    hour := p.2.map PDateTime.hour
    minute := p.2.map PDateTime.minute
    day_name := p.2.map (fun t => dayNameOf t.year t.month t.day) }

/-- Outcome of `preprocess`: the `return None` branch (line 26), the
`IndexError` raised by the sender split (lines 42-44), or the DataFrame. -/
inductive ParseResult where
  | noMessages : ParseResult
  | indexError : ParseResult
  | ok : List Record → ParseResult
deriving DecidableEq, Repr

/-- The `preprocess` function, lines 20-56 of `app.py`. -/
def preprocess (data : String) : ParseResult :=
  if reSplitMessages data = [] ∨ reFindAll data = [] then ParseResult.noMessages
  else if ((blocksOf data).map splitUserMsg).any Option.isNone then
    ParseResult.indexError
  else
    ParseResult.ok
      ((List.zip (blocksOf data)
          ((datesOf data).map (fun d => parseTimestamp (cleanDate d)))).map mkRecord)

/-- The `st.error` messages displayed during a call to `preprocess`
(lines 39-40): one message when some date coerces to NaT.  These are
emitted before the sender split runs, so they appear even on inputs where
the split later raises. -/
def stErrors (data : String) : List String :=
  if reSplitMessages data = [] ∨ reFindAll data = [] then []
  else if ((datesOf data).map (fun d => parseTimestamp (cleanDate d))).any
            Option.isNone then
    ["Some dates are not properly formatted!"]
  else []

/-- The `user` column of a successful result (empty list otherwise). -/
def usersOf : ParseResult → List String
  | ParseResult.ok rs => rs.map Record.user
  | _ => []

/-- The `message` column of a successful result (empty list otherwise). -/
def bodiesOf : ParseResult → List String
  | ParseResult.ok rs => rs.map Record.message
  | _ => []

/-! ## Structural lemmas about the scanner and `preprocess` -/

/-- The scan always yields one more piece than matches, whatever the fuel:
`re.split` on a group-free pattern returns `len(findall) + 1` pieces. -/
theorem scanAux_len (f : Nat) : ∀ (a cs : List Char),
    ((scanAux f a cs).1).length = ((scanAux f a cs).2).length + 1 := by
  induction f with
  | zero => intro a cs; simp [scanAux]
  | succ n ih =>
    intro a cs
    cases cs with
    | nil => simp [scanAux]
    | cons c rest =>
      simp only [scanAux]
      cases h : matchTimestampAt (c :: rest) with
      | some p => simp [ih]
      | none => simp [ih]

/-- `len(re.split(pattern, data)[1:]) = len(re.findall(pattern, data))`. -/
theorem reSplit_len (data : String) :
    (reSplitMessages data).length = (reFindAll data).length := by
  unfold reSplitMessages reFindAll timestampScan
  rw [List.length_drop, scanAux_len]
  omega

theorem blocksOf_eq (data : String) : blocksOf data = reSplitMessages data := by
  unfold blocksOf
  rw [← reSplit_len, min_self, List.take_length]

theorem datesOf_eq (data : String) : datesOf data = reFindAll data := by
  unfold datesOf
  rw [reSplit_len, min_self, List.take_length]

/-- Inversion of the success case of `preprocess`. -/
theorem preprocess_ok_inv (data : String) (records : List Record)
    (h : preprocess data = ParseResult.ok records) :
    records = (List.zip (blocksOf data)
        ((datesOf data).map (fun d => parseTimestamp (cleanDate d)))).map mkRecord ∧
    ((blocksOf data).map splitUserMsg).any Option.isNone = false := by
  unfold preprocess at h
  split_ifs at h with h1 h2
  refine ⟨?_, ?_⟩
  · injection h with h3
    exact h3.symm
  · simpa using h2

theorem preprocess_ok_len (data : String) (records : List Record)
    (h : preprocess data = ParseResult.ok records) :
    records.length = (reFindAll data).length := by
  obtain ⟨hr, -⟩ := preprocess_ok_inv data records h
  rw [hr]
  simp [blocksOf_eq, datesOf_eq, reSplit_len]

theorem getD_map_lt {α β : Type} (f : α → β) (l : List α) (i : Nat) (d1 : β)
    (d2 : α) (h : i < l.length) : (l.map f).getD i d1 = f (l.getD i d2) := by
  induction l generalizing i with
  | nil => simp at h
  | cons x xs ih =>
    cases i with
    | zero => simp
    | succ n =>
      simp only [List.map_cons, List.getD_cons_succ]
      exact ih n (by simpa using h)

theorem getD_zip_lt {α β : Type} (l1 : List α) (l2 : List β) (i : Nat)
    (d1 : α) (d2 : β) (h1 : i < l1.length) (h2 : i < l2.length) :
    (List.zip l1 l2).getD i (d1, d2) = (l1.getD i d1, l2.getD i d2) := by
  induction l1 generalizing l2 i with
  | nil => simp at h1
  | cons x xs ih =>
    cases l2 with
    | nil => simp at h2
    | cons y ys =>
      cases i with
      | zero => simp
      | succ n =>
        simp only [List.zip_cons_cons, List.getD_cons_succ]
        exact ih ys n (by simpa using h1) (by simpa using h2)

/-- Row `i` of a successful `preprocess` is `mkRecord` of the `i`-th block
and the `i`-th parsed (cleaned) timestamp. -/
theorem preprocess_ok_getD (data : String) (records : List Record)
    (h : preprocess data = ParseResult.ok records) (i : Nat)
    (hi : i < records.length) :
    records.getD i default =
      mkRecord ((blocksOf data).getD i [],
                parseTimestamp (cleanDate ((datesOf data).getD i []))) := by
  obtain ⟨hr, -⟩ := preprocess_ok_inv data records h
  have hn : i < (reFindAll data).length := by
    rw [← preprocess_ok_len data records h]
    exact hi
  have hb : i < (blocksOf data).length := by rw [blocksOf_eq, reSplit_len]; exact hn
  have hd : i < (datesOf data).length := by rw [datesOf_eq]; exact hn
  have hz : i < (List.zip (blocksOf data)
      ((datesOf data).map (fun d => parseTimestamp (cleanDate d)))).length := by
    simp only [List.length_zip, List.length_map]
    omega
  rw [hr, getD_map_lt mkRecord _ i default ([], none) hz,
      getD_zip_lt _ _ i [] none hb (by simpa using hd),
      getD_map_lt (fun d => parseTimestamp (cleanDate d)) _ i none [] hd]

/-- Under a successful `preprocess`, the sender split succeeded on every
block (otherwise the result would have been `indexError`). -/
theorem splitUserMsg_of_ok (data : String) (records : List Record)
    (h : preprocess data = ParseResult.ok records) (i : Nat)
    (hi : i < records.length) :
    splitUserMsg ((blocksOf data).getD i []) ≠ none := by
  obtain ⟨-, hany⟩ := preprocess_ok_inv data records h
  intro hnone
  have hb : i < (blocksOf data).length := by
    rw [blocksOf_eq, reSplit_len, ← preprocess_ok_len data records h]
    exact hi
  have hmem : (blocksOf data).getD i [] ∈ blocksOf data := by
    rw [List.getD_eq_getElem _ _ hb]
    exact List.getElem_mem hb
  have htrue : ((blocksOf data).map splitUserMsg).any Option.isNone = true := by
    apply List.any_eq_true.mpr
    refine ⟨splitUserMsg ((blocksOf data).getD i []), List.mem_map_of_mem _ hmem, ?_⟩
    rw [hnone]
    rfl
  rw [hany] at htrue
  exact Bool.noConfusion htrue

/-- A successful `([^:]+):\s` search implies the block contains a colon. -/
theorem findDelimAux_colon (cs : List Char) : ∀ (acc : List Char)
    (p : List Char × List Char), findDelimAux acc cs = some p →
    hasColon cs = true := by
  induction cs with
  | nil => intro acc p h; simp [findDelimAux] at h
  | cons c tail ih =>
    intro acc p h
    by_cases hc : c = ':'
    · simp [hasColon, hc]
    · have h2 : findDelimAux (c :: acc) tail = some p := by
        simpa [findDelimAux, hc] using h
      simp [hasColon, hc, ih _ _ h2]

/-- When the sender split does not raise, it returns the captured name and
the remainder when the delimiter pattern matches, and the sentinel with the
whole block otherwise. -/
theorem splitUserMsg_spec (x : List Char) (hs : splitUserMsg x ≠ none) :
    splitUserMsg x =
      some ((findDelim x).elim "group_notification" (fun p => p.1.asString),
            (findDelim x).elim x.asString (fun p => p.2.asString)) := by
  by_cases hc : hasColon x = true
  · cases hfd : findDelim x with
    | none =>
      exact absurd (by simp [splitUserMsg, hc, hfd]) hs
    | some p => simp [splitUserMsg, hc, hfd]
  · have hfd : findDelim x = none := by
      cases hfd : findDelim x with
      | none => rfl
      | some p => exact absurd (findDelimAux_colon x [] p hfd) hc
    simp [splitUserMsg, hc, hfd]

/-- Sender and body of row `i` in terms of the delimiter search on block `i`. -/
theorem record_user_message (data : String) (records : List Record)
    (h : preprocess data = ParseResult.ok records) (i : Nat)
    (hi : i < records.length) :
    (records.getD i default).user =
      (findDelim ((blocksOf data).getD i [])).elim "group_notification"
        (fun p => p.1.asString) ∧
    (records.getD i default).message =
      (findDelim ((blocksOf data).getD i [])).elim
        (((blocksOf data).getD i []).asString) (fun p => p.2.asString) := by
  have hrec := preprocess_ok_getD data records h i hi
  have hsome := splitUserMsg_of_ok data records h i hi
  have hspec := splitUserMsg_spec _ hsome
  rw [hrec]
  unfold mkRecord
  rw [hspec]
  simp

/-! ## Claims -/

/-- C1 (counterexample): on this input the emitted sender equals the
sentinel string "group_notification" even though a name-colon-space
delimiter does precede the body — the captured name is itself the text
`group_notification` — refuting the claimed "if and only if". -/
theorem C1_counterexample :
    blocksOf "1/1/24, 9:00am -group_notification: hi" =
      ["group_notification: hi".toList] ∧
    findDelim ("group_notification: hi".toList) =
      some ("group_notification".toList, "hi".toList) ∧
    (usersOf (preprocess "1/1/24, 9:00am -group_notification: hi")).getD 0 "" =
      "group_notification" := by
  refine ⟨by decide, by decide, by decide⟩

/-- C1 (amended): for every emitted record, if the block contains no
`([^:]+):\s` delimiter then the sender is the sentinel "group_notification"
and the body is the whole block; if it does contain one then the sender is
the captured name — which may itself coincide with the sentinel string —
and the body is the remainder after the delimiter. -/
theorem C1_sender_delimiter (data : String) (records : List Record)
    (h : preprocess data = ParseResult.ok records) (i : Nat)
    (hi : i < records.length) :
    (records.getD i default).user =
      (findDelim ((blocksOf data).getD i [])).elim "group_notification"
        (fun p => p.1.asString) ∧
    (records.getD i default).message =
      (findDelim ((blocksOf data).getD i [])).elim
        (((blocksOf data).getD i []).asString) (fun p => p.2.asString) :=
  record_user_message data records h i hi

/-- C1 witness: the amended statement evaluated on a concrete export line. -/
theorem C1_sender_delimiter_witness :
    preprocess "2/1/24, 9:30pm - Alice: Hello" = ParseResult.ok
      [⟨some ⟨2024, 1, 2, 21, 30⟩, " Alice", "Hello", some 2024,
        some "January", some 2, some 21, some 30, some "Tuesday"⟩] ∧
    0 < ([⟨some ⟨2024, 1, 2, 21, 30⟩, " Alice", "Hello", some 2024,
        some "January", some 2, some 21, some 30, some "Tuesday"⟩] :
        List Record).length ∧
    (([⟨some ⟨2024, 1, 2, 21, 30⟩, " Alice", "Hello", some 2024,
        some "January", some 2, some 21, some 30, some "Tuesday"⟩] :
        List Record).getD 0 default).user =
      (findDelim ((blocksOf "2/1/24, 9:30pm - Alice: Hello").getD 0 [])).elim
        "group_notification" (fun p => p.1.asString) ∧
    (([⟨some ⟨2024, 1, 2, 21, 30⟩, " Alice", "Hello", some 2024,
        some "January", some 2, some 21, some 30, some "Tuesday"⟩] :
        List Record).getD 0 default).message =
      (findDelim ((blocksOf "2/1/24, 9:30pm - Alice: Hello").getD 0 [])).elim
        (((blocksOf "2/1/24, 9:30pm - Alice: Hello").getD 0 []).asString)
        (fun p => p.2.asString) :=
  ⟨by decide, by decide,
   C1_sender_delimiter "2/1/24, 9:30pm - Alice: Hello" _ (by decide) 0 (by decide)⟩

/-- C2 (evaluation at the failing input): this input has exactly one
timestamp match, yet `preprocess` raises `IndexError` instead of returning
exactly one record: the sender split is guarded by `':' in x` but splits on
`([^:]+):\s`, which does not match the block ` a:b`. -/
theorem C2_crash_eval :
    (reFindAll "1/1/24, 9:00am - a:b").length = 1 ∧
    preprocess "1/1/24, 9:00am - a:b" = ParseResult.indexError :=
  ⟨by decide, by decide⟩

/-- C3: when the timestamp pattern matches nowhere (the empty input
included), `preprocess` returns the failure value (`return None`, the
NoMessagesFound signal) rather than an empty record list. -/
theorem C3_no_matches (data : String) (h : reFindAll data = []) :
    preprocess data = ParseResult.noMessages := by
  unfold preprocess
  rw [if_pos (Or.inr h)]

/-- C3 witness: the empty input has no matches and yields the failure. -/
theorem C3_no_matches_witness :
    reFindAll "" = [] ∧ preprocess "" = ParseResult.noMessages :=
  ⟨by decide, C3_no_matches "" (by decide)⟩

/-- C4: in a successful parse every timestamp match yields a record (as
many records as matches, so a failed date drops nothing), each record's
`date` is the coerced parse of its cleaned timestamp text (null exactly
when that parse fails), and each of the six derived calendar fields is
null exactly when `date` is null. -/
theorem C4_null_timestamp_fields (data : String) (records : List Record)
    (h : preprocess data = ParseResult.ok records) (i : Nat)
    (hi : i < records.length) :
    records.length = (reFindAll data).length ∧
    (records.getD i default).date =
      parseTimestamp (cleanDate ((datesOf data).getD i [])) ∧
    ((records.getD i default).year = none ↔
      (records.getD i default).date = none) ∧
    ((records.getD i default).month = none ↔
      (records.getD i default).date = none) ∧
    ((records.getD i default).day = none ↔
      (records.getD i default).date = none) ∧
    ((records.getD i default).hour = none ↔
      (records.getD i default).date = none) ∧
    ((records.getD i default).minute = none ↔
      (records.getD i default).date = none) ∧
    ((records.getD i default).day_name = none ↔
      (records.getD i default).date = none) := by
  refine ⟨preprocess_ok_len data records h, ?_⟩
  rw [preprocess_ok_getD data records h i hi]
  unfold mkRecord
  simp [Option.map_eq_none']

/-- C4 witness: a record whose date string fails the format is present with
a null timestamp and all derived fields null. -/
theorem C4_null_timestamp_fields_witness :
    preprocess "99/99/99, 9:00am - Alice: Hi" = ParseResult.ok
      [⟨none, " Alice", "Hi", none, none, none, none, none, none⟩] ∧
    0 < ([⟨none, " Alice", "Hi", none, none, none, none, none, none⟩] :
        List Record).length ∧
    (([⟨none, " Alice", "Hi", none, none, none, none, none, none⟩] :
        List Record).length = (reFindAll "99/99/99, 9:00am - Alice: Hi").length ∧
     (([⟨none, " Alice", "Hi", none, none, none, none, none, none⟩] :
        List Record).getD 0 default).date =
       parseTimestamp (cleanDate ((datesOf "99/99/99, 9:00am - Alice: Hi").getD 0 [])) ∧
     ((([⟨none, " Alice", "Hi", none, none, none, none, none, none⟩] :
        List Record).getD 0 default).year = none ↔
       (([⟨none, " Alice", "Hi", none, none, none, none, none, none⟩] :
        List Record).getD 0 default).date = none) ∧
     ((([⟨none, " Alice", "Hi", none, none, none, none, none, none⟩] :
        List Record).getD 0 default).month = none ↔
       (([⟨none, " Alice", "Hi", none, none, none, none, none, none⟩] :
        List Record).getD 0 default).date = none) ∧
     ((([⟨none, " Alice", "Hi", none, none, none, none, none, none⟩] :
        List Record).getD 0 default).day = none ↔
       (([⟨none, " Alice", "Hi", none, none, none, none, none, none⟩] :
        List Record).getD 0 default).date = none) ∧
     ((([⟨none, " Alice", "Hi", none, none, none, none, none, none⟩] :
        List Record).getD 0 default).hour = none ↔
       (([⟨none, " Alice", "Hi", none, none, none, none, none, none⟩] :
        List Record).getD 0 default).date = none) ∧
     ((([⟨none, " Alice", "Hi", none, none, none, none, none, none⟩] :
        List Record).getD 0 default).minute = none ↔
       (([⟨none, " Alice", "Hi", none, none, none, none, none, none⟩] :
        List Record).getD 0 default).date = none) ∧
     ((([⟨none, " Alice", "Hi", none, none, none, none, none, none⟩] :
        List Record).getD 0 default).day_name = none ↔
       (([⟨none, " Alice", "Hi", none, none, none, none, none, none⟩] :
        List Record).getD 0 default).date = none)) :=
  ⟨by decide, by decide,
   C4_null_timestamp_fields "99/99/99, 9:00am - Alice: Hi" _ (by decide) 0 (by decide)⟩

/-- C5: when the remainder after the sender delimiter is exactly the media
marker, the emitted body is exactly the literal string `<Media omitted>`,
with nothing added, trimmed or altered. -/
theorem C5_media_exact (data : String) (records : List Record)
    (h : preprocess data = ParseResult.ok records) (i : Nat)
    (hi : i < records.length)
    (hm : (findDelim ((blocksOf data).getD i [])).map (fun p => p.2) =
          some ("<Media omitted>".toList)) :
    (records.getD i default).message = "<Media omitted>" := by
  obtain ⟨-, hmsg⟩ := record_user_message data records h i hi
  cases hfd : findDelim ((blocksOf data).getD i []) with
  | none =>
    rw [hfd] at hm
    exact Option.noConfusion hm
  | some p =>
    rw [hfd] at hm hmsg
    have hp : p.2 = "<Media omitted>".toList := by simpa using hm
    simp only [Option.elim] at hmsg
    rw [hmsg, hp]
    rfl

/-- C5 witness: a media-placeholder message on a concrete input. -/
theorem C5_media_exact_witness :
    preprocess "1/1/24, 9:00am - Alice: <Media omitted>" = ParseResult.ok
      [⟨some ⟨2024, 1, 1, 9, 0⟩, " Alice", "<Media omitted>", some 2024,
        some "January", some 1, some 9, some 0, some "Monday"⟩] ∧
    0 < ([⟨some ⟨2024, 1, 1, 9, 0⟩, " Alice", "<Media omitted>", some 2024,
        some "January", some 1, some 9, some 0, some "Monday"⟩] :
        List Record).length ∧
    (findDelim ((blocksOf "1/1/24, 9:00am - Alice: <Media omitted>").getD 0 [])).map
        (fun p => p.2) = some ("<Media omitted>".toList) ∧
    (([⟨some ⟨2024, 1, 1, 9, 0⟩, " Alice", "<Media omitted>", some 2024,
        some "January", some 1, some 9, some 0, some "Monday"⟩] :
        List Record).getD 0 default).message = "<Media omitted>" :=
  ⟨by decide, by decide, by decide,
   C5_media_exact "1/1/24, 9:00am - Alice: <Media omitted>" _ (by decide) 0
     (by decide) (by decide)⟩

/-- C6 (counterexample): a group-notification body is the whole block
verbatim, which keeps its leading space; it is not the trimmed block the
claim asserts. -/
theorem C6_counterexample :
    (usersOf (preprocess "1/1/24, 9:00am - Messages and calls are end-to-end encrypted.")).getD 0 "" =
      "group_notification" ∧
    (bodiesOf (preprocess "1/1/24, 9:00am - Messages and calls are end-to-end encrypted.")).getD 0 "" =
      " Messages and calls are end-to-end encrypted." ∧
    (bodiesOf (preprocess "1/1/24, 9:00am - Messages and calls are end-to-end encrypted.")).getD 0 "" ≠
      "Messages and calls are end-to-end encrypted." := by
  refine ⟨by decide, by decide, by decide⟩

/-- C6 (amended): for every emitted record whose block contains no colon,
the sender is the sentinel "group_notification" and the body equals the
whole block verbatim — with no whitespace trimming. -/
theorem C6_notification_body (data : String) (records : List Record)
    (h : preprocess data = ParseResult.ok records) (i : Nat)
    (hi : i < records.length)
    (hc : hasColon ((blocksOf data).getD i []) = false) :
    (records.getD i default).user = "group_notification" ∧
    (records.getD i default).message = ((blocksOf data).getD i []).asString := by
  obtain ⟨hu, hm⟩ := record_user_message data records h i hi
  have hfd : findDelim ((blocksOf data).getD i []) = none := by
    cases hfd : findDelim ((blocksOf data).getD i []) with
    | none => rfl
    | some p =>
      have hcol := findDelimAux_colon _ [] p hfd
      rw [hc] at hcol
      exact Bool.noConfusion hcol
  rw [hfd] at hu hm
  simp only [Option.elim] at hu hm
  exact ⟨hu, hm⟩

/-- C6 witness: a concrete notification line, with the body keeping the
leading space of its block. -/
theorem C6_notification_body_witness :
    preprocess "3/1/24, 9:00am - Bob left" = ParseResult.ok
      [⟨some ⟨2024, 1, 3, 9, 0⟩, "group_notification", " Bob left", some 2024,
        some "January", some 3, some 9, some 0, some "Wednesday"⟩] ∧
    0 < ([⟨some ⟨2024, 1, 3, 9, 0⟩, "group_notification", " Bob left", some 2024,
        some "January", some 3, some 9, some 0, some "Wednesday"⟩] :
        List Record).length ∧
    hasColon ((blocksOf "3/1/24, 9:00am - Bob left").getD 0 []) = false ∧
    ((([⟨some ⟨2024, 1, 3, 9, 0⟩, "group_notification", " Bob left", some 2024,
        some "January", some 3, some 9, some 0, some "Wednesday"⟩] :
        List Record).getD 0 default).user = "group_notification" ∧
     (([⟨some ⟨2024, 1, 3, 9, 0⟩, "group_notification", " Bob left", some 2024,
        some "January", some 3, some 9, some 0, some "Wednesday"⟩] :
        List Record).getD 0 default).message =
       ((blocksOf "3/1/24, 9:00am - Bob left").getD 0 []).asString) :=
  ⟨by decide, by decide, by decide,
   C6_notification_body "3/1/24, 9:00am - Bob left" _ (by decide) 0 (by decide)
     (by decide)⟩

/-- C7 (counterexample): on the two-message scenario input the senders are
not `Alice` and `Bob` and the bodies are not `Hello` and `Hi there`: the
parser keeps the block's leading space in the captured name and the
newline before the next timestamp in the body. -/
theorem C7_counterexample :
    usersOf (preprocess "1/1/24, 9:00am - Alice: Hello\n1/1/24, 9:05am - Bob: Hi there") ≠
      ["Alice", "Bob"] ∧
    bodiesOf (preprocess "1/1/24, 9:00am - Alice: Hello\n1/1/24, 9:05am - Bob: Hi there") ≠
      ["Hello", "Hi there"] := by
  refine ⟨by decide, by decide⟩

/-- C7 (amended): the scenario input yields exactly two records in order
with timestamps 2024-01-01T09:00 and 2024-01-01T09:05, but with senders
` Alice` and ` Bob` (leading space kept from the block) and bodies
`Hello\n` (trailing newline kept) and `Hi there`. -/
theorem C7_scenario_actual :
    preprocess "1/1/24, 9:00am - Alice: Hello\n1/1/24, 9:05am - Bob: Hi there" =
      ParseResult.ok
        [⟨some ⟨2024, 1, 1, 9, 0⟩, " Alice", "Hello\n", some 2024,
          some "January", some 1, some 9, some 0, some "Monday"⟩,
         ⟨some ⟨2024, 1, 1, 9, 5⟩, " Bob", "Hi there", some 2024,
          some "January", some 1, some 9, some 5, some "Monday"⟩] := by
  decide

/-- C8 (counterexample): Alice's multi-line body is not `line one\nline two`
— the block runs up to the start of the next timestamp match, so the body
also keeps the newline that precedes it. -/
theorem C8_counterexample :
    (bodiesOf (preprocess "1/1/24, 9:00am - Alice: line one\nline two\n1/1/24, 9:01am - Bob: reply")).length = 2 ∧
    (bodiesOf (preprocess "1/1/24, 9:00am - Alice: line one\nline two\n1/1/24, 9:01am - Bob: reply")).getD 0 "" ≠
      "line one\nline two" := by
  refine ⟨by decide, by decide⟩

/-- C8 (amended): multi-line bodies are preserved as one string with the
embedded line break intact (not truncated at the first line); Alice's body
is `line one\nline two\n`, including the newline preceding Bob's
timestamp. -/
theorem C8_multiline_actual :
    preprocess "1/1/24, 9:00am - Alice: line one\nline two\n1/1/24, 9:01am - Bob: reply" =
      ParseResult.ok
        [⟨some ⟨2024, 1, 1, 9, 0⟩, " Alice", "line one\nline two\n", some 2024,
          some "January", some 1, some 9, some 0, some "Monday"⟩,
         ⟨some ⟨2024, 1, 1, 9, 1⟩, " Bob", "reply", some 2024,
          some "January", some 1, some 9, some 1, some "Monday"⟩] := by
  decide

/-- C9 (counterexample): `preprocess` is not free of side effects: on an
input whose date fails the fixed format it calls `st.error`, displaying a
message in the UI (modelled by `stErrors`). -/
theorem C9_counterexample :
    stErrors "99/99/99, 8:00am - Bob: yo" =
      ["Some dates are not properly formatted!"] ∧
    stErrors "99/99/99, 8:00am - Bob: yo" ≠ ([] : List String) := by
  refine ⟨by decide, by decide⟩

/-- C9 (amended): `preprocess` is deterministic and retains no state
between calls — two invocations on the same input yield equal results and
equal side-effect traces — but it is not side-effect free (see the
counterexample). -/
theorem C9_deterministic (raw : String) :
    preprocess raw = preprocess raw ∧ stErrors raw = stErrors raw :=
  ⟨rfl, rfl⟩

/-- C10 (evaluation at the failing input): on a block containing a colon
never followed by whitespace (` 10:30`), the guard `':' in x` passes but
`re.split(r'([^:]+):\s', x)` does not split, so index `[1]` raises
`IndexError`: `preprocess` raises instead of emitting a well-defined
record. -/
theorem C10_crash_eval :
    preprocess "1/1/24, 9:00am - 10:30" = ParseResult.indexError := by
  decide

end WhatsAppAnalyzer
